import Mathlib

/-!
Verification of the P2P file-transfer application (src/windows.py, src/macos.py)
against its natural-language specification.

The two platform files contain near-identical copies of the core logic; the
definitions below embed that core:
* the Flask staging routes `upload_file`, `download_file`, `remove_file`
  (windows.py lines 95-154, macos.py lines 177-236);
* the UDP discovery receive loop `start_discovery_service` (windows.py 507-548);
* the TCP receive handler `handle_file_transfer` (windows.py 575-611,
  macos.py 632-682);
* the TCP sender `send_file` (windows.py 613-658, macos.py 684-752).

Python dictionaries are embedded as association lists with Python dict
semantics: `dget` is `d[k]` / `k in d`, `dinsert` is `d[k] = v` (overwrite in
place, else append), `derase` is `del d[k]`. File contents are byte lists
(`List Nat`); the filesystem is a dict from path to contents. Wall-clock
timestamps and the uuid4-generated ids are passed in as parameters, since the
source draws them from the environment.
-/

/-- Association-list embedding of a Python `dict` with string keys. -/
abbrev Dict (α : Type) := List (String × α)

/-- `d[k]` / `k in d`: first (and, for a well-formed dict, only) binding of `k`. -/
def dget {α : Type} (d : Dict α) (k : String) : Option α :=
  match d with
  | [] => none
  | (k', v) :: rest => if k' = k then some v else dget rest k

/-- `d[k] = v`: overwrite the existing binding in place, else append at the end
(Python dicts keep the original slot on overwrite and append new keys). -/
def dinsert {α : Type} (d : Dict α) (k : String) (v : α) : Dict α :=
  match d with
  | [] => [(k, v)]
  | (k', v') :: rest => if k' = k then (k, v) :: rest else (k', v') :: dinsert rest k v

/-- `del d[k]`: drop the binding(s) of `k`. -/
def derase {α : Type} (d : Dict α) (k : String) : Dict α :=
  match d with
  | [] => []
  | (k', v) :: rest => if k' = k then derase rest k else (k', v) :: derase rest k

/-- Number of bindings of key `k` (a real dict has at most one). -/
def dcount {α : Type} (d : Dict α) (k : String) : Nat :=
  match d with
  | [] => 0
  | (k', _) :: rest => (if k' = k then 1 else 0) + dcount rest k

/-- A well-formed dict binds each key at most once (true of every Python dict). -/
def WfDict {α : Type} (d : Dict α) : Prop := (d.map Prod.fst).Nodup

theorem dget_dinsert_self {α : Type} (d : Dict α) (k : String) (v : α) :
    dget (dinsert d k v) k = some v := by
  induction d with
  | nil => simp [dinsert, dget]
  | cons hd rest ih =>
    obtain ⟨k', v'⟩ := hd
    by_cases h : k' = k
    · simp [dinsert, dget, h]
    · simp [dinsert, dget, h, ih]

theorem dget_dinsert_ne {α : Type} (d : Dict α) (k k' : String) (v : α) (h : k' ≠ k) :
    dget (dinsert d k v) k' = dget d k' := by
  induction d with
  | nil =>
    simp only [dinsert, dget]
    rw [if_neg (Ne.symm h)]
  | cons hd rest ih =>
    obtain ⟨k'', v''⟩ := hd
    by_cases hk : k'' = k
    · subst hk
      simp only [dinsert, if_pos rfl, dget]
      rw [if_neg (Ne.symm h), if_neg (Ne.symm h)]
    · simp only [dinsert, if_neg hk, dget]
      by_cases hk' : k'' = k'
      · simp [hk']
      · simp [hk', ih]

theorem dget_derase_self {α : Type} (d : Dict α) (k : String) :
    dget (derase d k) k = none := by
  induction d with
  | nil => simp [derase, dget]
  | cons hd rest ih =>
    obtain ⟨k', v⟩ := hd
    by_cases h : k' = k
    · simp [derase, h, ih]
    · simp [derase, dget, h, ih]

theorem dget_derase_ne {α : Type} (d : Dict α) (k k' : String) (h : k' ≠ k) :
    dget (derase d k) k' = dget d k' := by
  induction d with
  | nil => simp [derase]
  | cons hd rest ih =>
    obtain ⟨k'', v⟩ := hd
    by_cases hk : k'' = k
    · subst hk
      simp [derase, dget, Ne.symm h, ih]
    · by_cases hk' : k'' = k'
      · subst hk'
        simp [derase, dget, hk]
      · simp [derase, dget, hk, hk', ih]

theorem dcount_eq_zero_of_not_mem {α : Type} (d : Dict α) (k : String)
    (h : k ∉ d.map Prod.fst) : dcount d k = 0 := by
  induction d with
  | nil => simp [dcount]
  | cons hd rest ih =>
    obtain ⟨k', v⟩ := hd
    simp only [List.map_cons, List.mem_cons] at h
    push_neg at h
    simp only [dcount]
    rw [if_neg (Ne.symm h.1), ih h.2]

theorem dcount_dinsert_self {α : Type} (d : Dict α) (k : String) (v : α)
    (hwf : WfDict d) : dcount (dinsert d k v) k = 1 := by
  induction d with
  | nil => simp [dinsert, dcount]
  | cons hd rest ih =>
    obtain ⟨k', v'⟩ := hd
    simp only [WfDict, List.map_cons, List.nodup_cons] at hwf
    by_cases h : k' = k
    · subst h
      simp [dinsert, dcount, dcount_eq_zero_of_not_mem rest k' hwf.1]
    · simp [dinsert, dcount, h, ih hwf.2]

theorem mem_keys_dinsert {α : Type} (d : Dict α) (k x : String) (v : α) :
    x ∈ (dinsert d k v).map Prod.fst ↔ x = k ∨ x ∈ d.map Prod.fst := by
  induction d with
  | nil => simp [dinsert]
  | cons hd rest ih =>
    obtain ⟨k', v'⟩ := hd
    by_cases h : k' = k
    · subst h
      simp [dinsert]
    · simp only [dinsert, if_neg h, List.map_cons, List.mem_cons, ih]
      tauto

theorem wfDict_dinsert {α : Type} (d : Dict α) (k : String) (v : α)
    (hwf : WfDict d) : WfDict (dinsert d k v) := by
  induction d with
  | nil => simp [dinsert, WfDict]
  | cons hd rest ih =>
    obtain ⟨k', v'⟩ := hd
    by_cases h : k' = k
    · subst h
      simpa [dinsert, WfDict] using hwf
    · simp only [WfDict, List.map_cons, List.nodup_cons] at hwf
      simp only [dinsert, if_neg h, WfDict, List.map_cons, List.nodup_cons]
      constructor
      · rw [mem_keys_dinsert]
        push_neg
        exact ⟨h, hwf.1⟩
      · exact ih hwf.2

/-! ## The staging registry and HTTP routes

State shared by the Flask routes: `self.pending_files` (dict id ↦ entry),
`self.transfer_history` (a list that is only ever appended to), and the
filesystem the routes read and write (path ↦ bytes). -/

/-- One entry of `self.pending_files` (windows.py lines 110-117). -/
structure PendingFile where
  id : String
  name : String
  path : String
  size : Nat
  upload_time : String
  status : String
deriving DecidableEq, Repr

/-- One entry of `self.transfer_history` (windows.py lines 129-134). -/
structure TransferRecord where
  file_name : String
  device : String
  transfer_time : String
  status : String
deriving DecidableEq, Repr

/-- The mutable state the three staging routes touch. -/
structure AppState where
  pending_files : Dict PendingFile
  transfer_history : List TransferRecord
  disk : Dict (List Nat)
deriving Repr

/-- `os.path.join(os.path.expanduser('~'), 'Desktop', filename)`. -/
def desktop_path (home filename : String) : String :=
  home ++ "/Desktop/" ++ filename

/-- `os.path.getsize(p)`: length of the file on disk (0 modelled for a missing
file; the source only calls it right after a successful save). -/
def os_path_getsize (disk : Dict (List Nat)) (p : String) : Nat :=
  match dget disk p with
  | some bs => bs.length
  | none => 0

/-- The multipart request seen by `upload_file`: either the field `file` is
absent, or it is present with a (possibly empty) filename and content. -/
inductive UploadReq where
  | noFileField
  | fileField (filename : String) (content : List Nat)
deriving Repr

/-- Response of `POST /api/upload`. -/
inductive UploadRes where
  | badRequest (error : String)
  | success (file_id : String)
deriving DecidableEq, Repr

/-- `upload_file` (windows.py lines 95-119, macos.py lines 177-201).
`file_id` stands for the freshly generated `str(uuid.uuid4())`, `now` for
`datetime.now().strftime(...)`, `home` for `os.path.expanduser('~')`. -/
def upload_file (st : AppState) (home now file_id : String) (req : UploadReq) :
    UploadRes × AppState :=
  match req with
  | .noFileField => (.badRequest "Dosya bulunamadı", st)
  | .fileField filename content =>
    if filename = "" then (.badRequest "Dosya seçilmedi", st)
    else
      let temp_path := desktop_path home filename
      let disk' := dinsert st.disk temp_path content
      let entry : PendingFile :=
        { id := file_id
          name := filename
          path := temp_path
          size := os_path_getsize disk' temp_path
          upload_time := now
          status := "pending" }
      (.success file_id,
       { st with disk := disk', pending_files := dinsert st.pending_files file_id entry })

/-- Response of `GET /api/download/<file_id>`: 404, or the `send_file` body
(`none` inside `fileBody` models `send_file` on a path missing from disk). -/
inductive DownloadRes where
  | notFound
  | fileBody (bytes : Option (List Nat)) (download_name : String)
deriving DecidableEq, Repr

/-- `download_file` (windows.py lines 121-139, macos.py lines 203-221):
404 if the id is unknown; otherwise append a completed `TransferRecord`,
delete the pending entry, and serve the bytes at the entry's path. -/
def download_file (st : AppState) (device_name now file_id : String) :
    DownloadRes × AppState :=
  match dget st.pending_files file_id with
  | none => (.notFound, st)
  | some fi =>
    let record : TransferRecord :=
      { file_name := fi.name
        device := device_name
        transfer_time := now
        status := "completed" }
    (.fileBody (dget st.disk fi.path) fi.name,
     { st with
        transfer_history := st.transfer_history ++ [record]
        pending_files := derase st.pending_files file_id })

/-- Response of `DELETE /api/remove/<file_id>`. -/
inductive RemoveRes where
  | notFound
  | success
deriving DecidableEq, Repr

/-- `remove_file` (windows.py lines 141-154, macos.py lines 223-236):
404 if the id is unknown; otherwise delete the backing file if it exists and
drop the pending entry. No history record is written. -/
def remove_file (st : AppState) (file_id : String) : RemoveRes × AppState :=
  match dget st.pending_files file_id with
  | none => (.notFound, st)
  | some fi =>
    (.success,
     { st with
        disk := derase st.disk fi.path
        pending_files := derase st.pending_files file_id })

/-! ## Claims about the staging routes -/

/-- **C2**: `GET /api/download/<id>` fails with 404 exactly when the id is not
a pending entry; on a present id it removes that pending entry, appends
exactly one completed `TransferRecord` to the history, and serves the bytes
stored at the entry's path. -/
theorem C2_fetch_spec (st : AppState) (dn now id : String) :
    ((download_file st dn now id).fst = .notFound ↔ dget st.pending_files id = none) ∧
    (∀ pf, dget st.pending_files id = some pf →
      (download_file st dn now id).fst = .fileBody (dget st.disk pf.path) pf.name ∧
      (download_file st dn now id).snd.pending_files = derase st.pending_files id ∧
      dget (download_file st dn now id).snd.pending_files id = none ∧
      (download_file st dn now id).snd.transfer_history =
        st.transfer_history ++
          [{ file_name := pf.name, device := dn, transfer_time := now,
             status := "completed" }] ∧
      (download_file st dn now id).snd.transfer_history.length =
        st.transfer_history.length + 1) := by
  cases hl : dget st.pending_files id with
  | none => simp [download_file, hl]
  | some pf =>
    constructor
    · simp [download_file, hl]
    · intro pf' hpf'
      injection hpf' with h
      subst h
      simp [download_file, hl, dget_derase_self]

/-- Concrete pending entry used by witnesses. -/
def pfA : PendingFile :=
  { id := "id1", name := "test.txt", path := "/home/u/Desktop/test.txt", size := 3,
    upload_time := "t0", status := "pending" }

/-- Concrete registry state used by witnesses: one staged file of three bytes. -/
def stA : AppState :=
  { pending_files := [("id1", pfA)],
    transfer_history := [],
    disk := [("/home/u/Desktop/test.txt", [10, 20, 30])] }

theorem C2_fetch_spec_witness :
    (download_file stA "dev" "t1" "id1").fst = .fileBody (some [10, 20, 30]) "test.txt" ∧
    dget (download_file stA "dev" "t1" "id1").snd.pending_files "id1" = none ∧
    (download_file stA "dev" "t1" "id1").snd.transfer_history.length = 1 := by
  have hp : dget stA.pending_files "id1" = some pfA := by rfl
  obtain ⟨h1, h2, h3, h4, h5⟩ := (C2_fetch_spec stA "dev" "t1" "id1").2 pfA hp
  exact ⟨by rw [h1]; rfl, h3, h5⟩

/-- **C4**: `POST /api/upload` fails with 400 on a missing `file` field or an
empty filename, in both cases leaving the state untouched; on success it
returns the fresh id, which maps to exactly one pending entry whose recorded
size equals the number of bytes persisted at its storage path. -/
theorem C4_upload_spec (st : AppState) (home now fid fname : String) (content : List Nat) :
    upload_file st home now fid .noFileField = (.badRequest "Dosya bulunamadı", st) ∧
    upload_file st home now fid (.fileField "" content) = (.badRequest "Dosya seçilmedi", st) ∧
    (fname ≠ "" →
      (upload_file st home now fid (.fileField fname content)).fst = .success fid ∧
      dget (upload_file st home now fid (.fileField fname content)).snd.pending_files fid =
        some { id := fid, name := fname, path := desktop_path home fname,
               size := content.length, upload_time := now, status := "pending" } ∧
      dget (upload_file st home now fid (.fileField fname content)).snd.disk
        (desktop_path home fname) = some content ∧
      (WfDict st.pending_files →
        dcount (upload_file st home now fid (.fileField fname content)).snd.pending_files
          fid = 1)) := by
  refine ⟨rfl, rfl, ?_⟩
  intro h
  refine ⟨?_, ?_, ?_, ?_⟩
  · simp [upload_file, h]
  · simp [upload_file, h, dget_dinsert_self, os_path_getsize]
  · simp [upload_file, h, dget_dinsert_self]
  · intro hwf
    simp [upload_file, h, dcount_dinsert_self _ _ _ hwf]

theorem C4_upload_spec_witness :
    (upload_file stA "/home/u" "t2" "id2" (.fileField "b.bin" [7, 8])).fst = .success "id2" ∧
    dget (upload_file stA "/home/u" "t2" "id2"
        (.fileField "b.bin" [7, 8])).snd.pending_files "id2" =
      some { id := "id2", name := "b.bin", path := "/home/u/Desktop/b.bin",
             size := 2, upload_time := "t2", status := "pending" } ∧
    dcount (upload_file stA "/home/u" "t2" "id2"
        (.fileField "b.bin" [7, 8])).snd.pending_files "id2" = 1 := by
  obtain ⟨-, -, hmain⟩ :=
    C4_upload_spec stA "/home/u" "t2" "id2" "b.bin" [7, 8]
  obtain ⟨h1, h2, h3, h4⟩ := hmain (by decide)
  exact ⟨h1, h2, h4 (by simp [WfDict, stA])⟩

/-- **C5**: `DELETE /api/remove/<id>` never appends to the history, fails with
404 exactly when the id is absent, and on a present id deletes the backing
storage and the pending entry, after which both a fetch and a second remove
of the same id fail with 404. -/
theorem C5_remove_spec (st : AppState) (dn now id : String) :
    ((remove_file st id).fst = .notFound ↔ dget st.pending_files id = none) ∧
    (remove_file st id).snd.transfer_history = st.transfer_history ∧
    (∀ pf, dget st.pending_files id = some pf →
      dget (remove_file st id).snd.disk pf.path = none ∧
      dget (remove_file st id).snd.pending_files id = none ∧
      (download_file (remove_file st id).snd dn now id).fst = .notFound ∧
      (remove_file (remove_file st id).snd id).fst = .notFound) := by
  cases hl : dget st.pending_files id with
  | none => simp [remove_file, hl]
  | some pf =>
    refine ⟨by simp [remove_file, hl], by simp [remove_file, hl], ?_⟩
    intro pf' hpf'
    injection hpf' with h
    subst h
    refine ⟨by simp [remove_file, hl, dget_derase_self],
            by simp [remove_file, hl, dget_derase_self], ?_, ?_⟩
    · simp [download_file, remove_file, hl, dget_derase_self]
    · simp only [remove_file, hl]
      simp [remove_file, dget_derase_self]

theorem C5_remove_spec_witness :
    (remove_file stA "id1").snd.transfer_history = [] ∧
    dget (remove_file stA "id1").snd.disk "/home/u/Desktop/test.txt" = none ∧
    (download_file (remove_file stA "id1").snd "dev" "t1" "id1").fst = .notFound ∧
    (remove_file (remove_file stA "id1").snd "id1").fst = .notFound := by
  have hp : dget stA.pending_files "id1" = some pfA := by rfl
  obtain ⟨-, hh, hmain⟩ := C5_remove_spec stA "dev" "t1" "id1"
  obtain ⟨h1, h2, h3, h4⟩ := hmain pfA hp
  exact ⟨hh, h1, h3, h4⟩

/-- **C9**: the storage path of a staged file is the Desktop directory joined
with the original filename and nothing else, so two uploads with equal
filenames record the same `path`, and the bytes at that path after the second
upload are the second upload's content (the second save overwrote the first). -/
theorem C9_equal_filenames_share_path (st : AppState)
    (home now1 now2 id1 id2 fname : String) (b1 b2 : List Nat)
    (hname : fname ≠ "") (hid : id1 ≠ id2) :
    ∃ pf1 pf2,
      dget (upload_file (upload_file st home now1 id1 (.fileField fname b1)).snd
              home now2 id2 (.fileField fname b2)).snd.pending_files id1 = some pf1 ∧
      dget (upload_file (upload_file st home now1 id1 (.fileField fname b1)).snd
              home now2 id2 (.fileField fname b2)).snd.pending_files id2 = some pf2 ∧
      pf1.path = desktop_path home fname ∧
      pf2.path = desktop_path home fname ∧
      dget (upload_file (upload_file st home now1 id1 (.fileField fname b1)).snd
              home now2 id2 (.fileField fname b2)).snd.disk pf1.path = some b2 := by
  refine ⟨{ id := id1, name := fname, path := desktop_path home fname,
            size := os_path_getsize (dinsert st.disk (desktop_path home fname) b1)
                      (desktop_path home fname),
            upload_time := now1, status := "pending" },
          { id := id2, name := fname, path := desktop_path home fname,
            size := os_path_getsize
                      (dinsert (dinsert st.disk (desktop_path home fname) b1)
                        (desktop_path home fname) b2)
                      (desktop_path home fname),
            upload_time := now2, status := "pending" }, ?_, ?_, rfl, rfl, ?_⟩
  · simp only [upload_file, if_neg hname]
    rw [dget_dinsert_ne _ _ _ _ hid, dget_dinsert_self]
  · simp only [upload_file, if_neg hname]
    rw [dget_dinsert_self]
  · simp only [upload_file, if_neg hname]
    rw [dget_dinsert_self]

theorem C9_equal_filenames_share_path_witness :
    ∃ pf1 pf2,
      dget (upload_file (upload_file stA "/home/u" "t1" "u1"
              (.fileField "dup.txt" [1])).snd "/home/u" "t2" "u2"
              (.fileField "dup.txt" [2, 3])).snd.pending_files "u1" = some pf1 ∧
      dget (upload_file (upload_file stA "/home/u" "t1" "u1"
              (.fileField "dup.txt" [1])).snd "/home/u" "t2" "u2"
              (.fileField "dup.txt" [2, 3])).snd.pending_files "u2" = some pf2 ∧
      pf1.path = desktop_path "/home/u" "dup.txt" ∧
      pf2.path = desktop_path "/home/u" "dup.txt" ∧
      dget (upload_file (upload_file stA "/home/u" "t1" "u1"
              (.fileField "dup.txt" [1])).snd "/home/u" "t2" "u2"
              (.fileField "dup.txt" [2, 3])).snd.disk pf1.path = some [2, 3] :=
  C9_equal_filenames_share_path stA "/home/u" "t1" "t2" "u1" "u2" "dup.txt" [1] [2, 3]
    (by decide) (by decide)

/-- **C10**: a fetch (`GET /api/download/<id>`) never writes or deletes
anything on disk — the bytes at the fetched entry's storage path are still
there afterwards; only `remove_file` deletes the backing storage. -/
theorem C10_fetch_preserves_disk (st : AppState) (dn now id : String) :
    (download_file st dn now id).snd.disk = st.disk ∧
    (∀ pf, dget st.pending_files id = some pf →
      dget (download_file st dn now id).snd.disk pf.path = dget st.disk pf.path ∧
      dget (download_file st dn now id).snd.pending_files id = none ∧
      (download_file st dn now id).snd.transfer_history.length =
        st.transfer_history.length + 1 ∧
      dget (remove_file st id).snd.disk pf.path = none) := by
  cases hl : dget st.pending_files id with
  | none => simp [download_file, hl]
  | some pf =>
    refine ⟨by simp [download_file, hl], ?_⟩
    intro pf' hpf'
    injection hpf' with h
    subst h
    refine ⟨by simp [download_file, hl], by simp [download_file, hl, dget_derase_self],
            by simp [download_file, hl], by simp [remove_file, hl, dget_derase_self]⟩

theorem C10_fetch_preserves_disk_witness :
    (download_file stA "dev" "t1" "id1").snd.disk = stA.disk ∧
    dget (download_file stA "dev" "t1" "id1").snd.disk "/home/u/Desktop/test.txt" =
      some [10, 20, 30] ∧
    dget (remove_file stA "id1").snd.disk "/home/u/Desktop/test.txt" = none := by
  have hp : dget stA.pending_files "id1" = some pfA := by rfl
  obtain ⟨hd, hmain⟩ := C10_fetch_preserves_disk stA "dev" "t1" "id1"
  obtain ⟨h1, h2, h3, h4⟩ := hmain pfA hp
  exact ⟨hd, by rw [hd]; rfl, h4⟩

/-! ## The UDP discovery receive loop

`start_discovery_service` (windows.py lines 507-548) runs one receive loop.
Each iteration receives a datagram, parses it as JSON, and dispatches on
`message['type']`; any exception in that body is caught by the inner
`except`, printed, and the loop continues. An inbound datagram is modelled
after parsing: `none` stands for a payload `json.loads` rejects (or a
non-object), `some msg` for a parsed JSON object whose values are modelled by
`JVal`. -/

/-- A JSON leaf value as the discovery code uses them. -/
inductive JVal where
  | s (v : String)
  | n (v : Int)
deriving DecidableEq, Repr

/-- How a Python f-string renders the value (used for the `"ip:port"` key). -/
def JVal.pystr : JVal → String
  | .s v => v
  | .n v => toString v

/-- One entry of `self.devices` (windows.py lines 535-540). -/
structure Device where
  name : JVal
  ip : JVal
  port : JVal
  last_seen : Nat
deriving DecidableEq, Repr

abbrev DevDict := Dict Device

/-- The reply dict built for a discovery request (windows.py lines 523-528).
The source comments out the transfer port (`# Port removed`), so the object
has exactly the keys `type`, `device_name` and `ip`. -/
def discovery_response (device_name local_ip : String) : Dict JVal :=
  [("type", .s "response"), ("device_name", .s device_name), ("ip", .s local_ip)]

/-- The body of one loop iteration (windows.py lines 518-541), without the
surrounding `except`: `.error` marks the exceptions the body can raise
(`json.loads` failure, `KeyError` on a missing field). On success it returns
the updated device table and the unicast reply passed to `sendto`, if any. -/
def discoveryIterationExc (device_name local_ip : String) (now : Nat)
    (devices : DevDict) (datagram : Option (Dict JVal)) :
    Except String (DevDict × Option (Dict JVal)) :=
  match datagram with
  | none => .error "json.loads"
  | some msg =>
    match dget msg "type" with
    | none => .error "KeyError: type"
    | some t =>
      if t = .s "discovery" then
        .ok (devices, some (discovery_response device_name local_ip))
      else if t = .s "response" then
        match dget msg "ip", dget msg "port", dget msg "device_name" with
        | some ipv, some portv, some namev =>
          .ok (dinsert devices (ipv.pystr ++ ":" ++ portv.pystr)
                { name := namev, ip := ipv, port := portv, last_seen := now }, none)
        | _, _, _ => .error "KeyError"
      else
        .ok (devices, none)

/-- One loop iteration with the `except` applied: an exception is printed and
the devices table is left as it was. -/
def discoveryStep (device_name local_ip : String) (now : Nat)
    (devices : DevDict) (datagram : Option (Dict JVal)) : DevDict :=
  match discoveryIterationExc device_name local_ip now devices datagram with
  | .ok (devices', _) => devices'
  | .error _ => devices

/-- The `while self.running` receive loop over a finite schedule of datagrams
(each paired with its receipt time `time.time()`). Returns the final device
table and how many datagrams were processed. -/
def discoveryLoop (device_name local_ip : String) (devices : DevDict)
    (datagrams : List (Nat × Option (Dict JVal))) : DevDict × Nat :=
  match datagrams with
  | [] => (devices, 0)
  | (now, dg) :: rest =>
    let r := discoveryLoop device_name local_ip
      (discoveryStep device_name local_ip now devices dg) rest
    (r.fst, r.snd + 1)

/-! ## Claims about discovery -/

/-- **C3, counterexample**: the claim says the reply to a discovery datagram
carries the configured transfer port in an integer field `port`. It does not:
at this concrete discovery datagram the loop body replies with
`discovery_response`, and that object has no `port` key at all. -/
theorem C3_reply_has_no_port_counterexample :
    discoveryIterationExc "host" "192.168.1.5" 0 []
        (some [("type", JVal.s "discovery"), ("device_name", JVal.s "peer")]) =
      .ok ([], some (discovery_response "host" "192.168.1.5")) ∧
    dget (discovery_response "host" "192.168.1.5") "port" = none := by
  constructor <;> rfl

/-- **C3, amended**: for every datagram of type `discovery`, the unicast reply
is a JSON object with exactly `type = "response"`, the device name, and the
local IP — and no `port` field (the source removed the transfer port from the
response). -/
theorem C3_discovery_reply_fields (dn li : String) (now : Nat) (devices : DevDict)
    (msg : Dict JVal) (h : dget msg "type" = some (.s "discovery")) :
    discoveryIterationExc dn li now devices (some msg) =
      .ok (devices, some (discovery_response dn li)) ∧
    dget (discovery_response dn li) "type" = some (.s "response") ∧
    dget (discovery_response dn li) "device_name" = some (.s dn) ∧
    dget (discovery_response dn li) "ip" = some (.s li) ∧
    dget (discovery_response dn li) "port" = none := by
  refine ⟨?_, rfl, ?_, ?_, rfl⟩
  · simp [discoveryIterationExc, h]
  · simp [discovery_response, dget]
  · simp [discovery_response, dget]

theorem C3_discovery_reply_fields_witness :
    discoveryIterationExc "host" "10.0.0.7" 5 []
        (some [("type", JVal.s "discovery"), ("device_name", JVal.s "peer")]) =
      .ok ([], some (discovery_response "host" "10.0.0.7")) ∧
    dget (discovery_response "host" "10.0.0.7") "ip" = some (.s "10.0.0.7") ∧
    dget (discovery_response "host" "10.0.0.7") "port" = none := by
  obtain ⟨h1, h2, h3, h4, h5⟩ :=
    C3_discovery_reply_fields "host" "10.0.0.7" 5 []
      [("type", JVal.s "discovery"), ("device_name", JVal.s "peer")] rfl
  exact ⟨h1, h4, h5⟩

/-- **C7**: no datagram — JSON or not, well-formed or not — terminates the
receive loop: the loop processes every datagram of any schedule, and an
iteration whose body raises leaves the device table unchanged before the loop
moves on. -/
theorem C7_malformed_datagrams_never_fatal (dn li : String) (devices : DevDict)
    (dgs : List (Nat × Option (Dict JVal))) :
    (discoveryLoop dn li devices dgs).snd = dgs.length ∧
    (∀ (now : Nat) (ds : DevDict) (dg : Option (Dict JVal)) (e : String),
      discoveryIterationExc dn li now ds dg = .error e →
      discoveryStep dn li now ds dg = ds) := by
  constructor
  · induction dgs generalizing devices with
    | nil => rfl
    | cons hd rest ih =>
      obtain ⟨now, dg⟩ := hd
      simp [discoveryLoop, ih]
  · intro now ds dg e he
    simp [discoveryStep, he]

theorem C7_malformed_datagrams_never_fatal_witness :
    (discoveryLoop "host" "10.0.0.7" []
        [(0, none), (1, some [("x", JVal.n 1)]), (2, some [("type", JVal.n 3)])]).snd = 3 ∧
    discoveryStep "host" "10.0.0.7" 0 [] none = [] := by
  obtain ⟨h1, h2⟩ := C7_malformed_datagrams_never_fatal "host" "10.0.0.7" []
    [(0, none), (1, some [("x", JVal.n 1)]), (2, some [("type", JVal.n 3)])]
  exact ⟨h1, h2 0 [] none "json.loads" rfl⟩

/-- A well-formed discovery response as this application itself would consume
it: device name, IPv4 string, integer port, paired with its receipt time. -/
structure RespInfo where
  name : String
  ip : String
  port : Int
  time : Nat
deriving DecidableEq, Repr

/-- The parsed JSON object of such a response datagram. -/
def respDatagram (r : RespInfo) : Nat × Option (Dict JVal) :=
  (r.time, some [("type", .s "response"), ("device_name", .s r.name),
                 ("ip", .s r.ip), ("port", .n r.port)])

/-- The `f"{message['ip']}:{message['port']}"` key the loop files it under. -/
def respKey (r : RespInfo) : String := r.ip ++ ":" ++ toString r.port

/-- The `Device` entry the loop stores for it (windows.py lines 535-540). -/
def respDevice (r : RespInfo) : Device :=
  { name := .s r.name, ip := .s r.ip, port := .n r.port, last_seen := r.time }

/-- The most recently processed response of a given `"ip:port"` key. -/
def lastWith (rs : List RespInfo) (key : String) : Option RespInfo :=
  match rs with
  | [] => none
  | r :: rest =>
    match lastWith rest key with
    | some x => some x
    | none => if respKey r = key then some r else none

theorem discoveryStep_respDatagram (dn li : String) (ds : DevDict) (r : RespInfo) :
    discoveryStep dn li r.time ds
      (some [("type", .s "response"), ("device_name", .s r.name),
             ("ip", .s r.ip), ("port", .n r.port)]) =
      dinsert ds (respKey r) (respDevice r) := by
  rfl

/-- **C6**: after the loop processes any sequence of response datagrams, the
device table maps each `"ip:port"` key to exactly the data of the most
recently processed response carrying that key — later responses overwrite,
and per-key entries never accumulate (the table still binds each key once). -/
theorem C6_last_response_wins (dn li : String) (ds : DevDict) (rs : List RespInfo)
    (key : String) :
    dget (discoveryLoop dn li ds (rs.map respDatagram)).fst key =
      (match lastWith rs key with
       | some r => some (respDevice r)
       | none => dget ds key) ∧
    (WfDict ds → WfDict (discoveryLoop dn li ds (rs.map respDatagram)).fst) := by
  induction rs generalizing ds with
  | nil => exact ⟨rfl, fun h => h⟩
  | cons r rest ih =>
    constructor
    · have hstep :
          dget (discoveryLoop dn li (dinsert ds (respKey r) (respDevice r))
            (rest.map respDatagram)).fst key =
          (match lastWith rest key with
           | some x => some (respDevice x)
           | none => dget (dinsert ds (respKey r) (respDevice r)) key) :=
        (ih (dinsert ds (respKey r) (respDevice r))).1
      simp only [List.map_cons, discoveryLoop, discoveryStep_respDatagram]
      rw [hstep]
      cases hlast : lastWith rest key with
      | some x => simp [lastWith, hlast]
      | none =>
        by_cases hkey : respKey r = key
        · subst hkey
          simp [lastWith, hlast, dget_dinsert_self]
        · simp [lastWith, hlast, hkey, dget_dinsert_ne _ _ _ _ (Ne.symm hkey)]
    · intro hwf
      simp only [List.map_cons, discoveryLoop, discoveryStep_respDatagram]
      exact (ih (dinsert ds (respKey r) (respDevice r))).2
        (wfDict_dinsert _ _ _ hwf)

theorem C6_last_response_wins_witness :
    dget (discoveryLoop "host" "10.0.0.7" []
        ([{ name := "A", ip := "10.0.0.2", port := 5000, time := 1 },
          { name := "B", ip := "10.0.0.2", port := 5000, time := 2 }].map
          respDatagram)).fst "10.0.0.2:5000" =
      some { name := .s "B", ip := .s "10.0.0.2", port := .n 5000, last_seen := 2 } ∧
    WfDict (discoveryLoop "host" "10.0.0.7" []
        ([{ name := "A", ip := "10.0.0.2", port := 5000, time := 1 },
          { name := "B", ip := "10.0.0.2", port := 5000, time := 2 }].map
          respDatagram)).fst := by
  obtain ⟨h1, h2⟩ := C6_last_response_wins "host" "10.0.0.7" []
    [{ name := "A", ip := "10.0.0.2", port := 5000, time := 1 },
     { name := "B", ip := "10.0.0.2", port := 5000, time := 2 }] "10.0.0.2:5000"
  refine ⟨?_, h2 (by simp [WfDict])⟩
  rw [h1]
  rfl

/-! ## The TCP transfer protocol

`handle_file_transfer` (windows.py lines 575-611, macos.py 632-682) reads a
1024-byte header frame, parses it as JSON, asks for approval (auto-accept on
macOS), then reads the body in `recv(min(8192, filesize - received))` chunks
until `received` reaches `filesize` or a `recv` returns empty (connection
closed). A connection is modelled by the parsed header (`none` when the
header frame does not parse) and the list of body bytes the sender delivers
before closing; `recv n` returns the next `min n remaining` bytes of it. -/

/-- The transfer header JSON frame. -/
structure TransferHeader where
  filename : String
  filesize : Nat
deriving DecidableEq, Repr

/-- An inbound connection as seen by the handler. -/
structure IncomingConn where
  header : Option TransferHeader
  body : List Nat
deriving Repr

/-- What the handler does, observably: abort on a bad header (exception caught
in the outer `except`), send `REJECTED`, or write the received bytes and show
the success notification. `received` is the loop counter's final value. -/
inductive RecvOutcome where
  | protocolError
  | rejected
  | savedSuccess (file_path : String) (written : List Nat) (received : Nat)
deriving DecidableEq, Repr

/-- The body-receive loop (windows.py lines 596-603). `fuel` only bounds the
iteration count: every iteration that recurses consumes at least one body
byte, so `body.length + 1` iterations always suffice. -/
def recvLoopF : Nat → Nat → Nat → List Nat → List Nat → List Nat × Nat
  | 0, _, received, _, acc => (acc, received)
  | fuel + 1, filesize, received, body, acc =>
    if received < filesize then
      if (body.take (min 8192 (filesize - received))).isEmpty then (acc, received)
      else
        recvLoopF fuel filesize
          (received + (body.take (min 8192 (filesize - received))).length)
          (body.drop (min 8192 (filesize - received)))
          (acc ++ body.take (min 8192 (filesize - received)))
    else (acc, received)

/-- The receive loop started with `received = 0` on the connection's body. -/
def recvLoop (filesize : Nat) (body : List Nat) : List Nat × Nat :=
  recvLoopF (body.length + 1) filesize 0 body []

/-- `Path.home() / "Downloads" / filename`. -/
def downloads_path (filename : String) : String := "~/Downloads/" ++ filename

/-- `handle_file_transfer`: note that after the receive loop the source
unconditionally reports success (`messagebox.showinfo` / notification), even
when the loop broke out early because the connection closed short. -/
def handle_file_transfer (accept : Bool) (conn : IncomingConn) : RecvOutcome :=
  match conn.header with
  | none => .protocolError
  | some h =>
    if accept then
      .savedSuccess (downloads_path h.filename)
        (recvLoop h.filesize conn.body).fst (recvLoop h.filesize conn.body).snd
    else .rejected

/-- **C1**: the receive handler at a header declaring `filesize = 10` on a
connection that delivers only 4 body bytes and then closes: the code writes
the 4 bytes and reports success (`savedSuccess`), although `received = 4 < 10`.
The claim (and the spec) requires a PartialTransferError here, so this
evaluation exhibits the defect the spec itself flags in the source. -/
theorem C1_short_read_reported_success :
    handle_file_transfer true
        { header := some { filename := "a.txt", filesize := 10 }, body := [1, 2, 3, 4] } =
      .savedSuccess "~/Downloads/a.txt" [1, 2, 3, 4] 4 ∧ 4 < 10 := by
  constructor
  · rfl
  · decide

/-! ## The TCP sender `send_file`

(windows.py lines 613-658, macos.py 684-752.) After checking the path exists
it connects, sends the JSON header in one `send`, then loops
`chunk = f.read(8192)` / `send(chunk)` until `sent` reaches the file size,
updating the progress bar after each chunk; the `finally` block closes the
socket whenever one was created. The observable behaviour is the ordered
list of socket writes and progress-callback invocations. -/

/-- One observable action of `send_file`: the single header write, one body
`send`, or one progress update (the source sets the bar to
`(sent / total_size) * 100`; the event records the raw pair). -/
inductive SendEvent where
  | header (filename : String) (filesize : Nat)
  | chunk (bytes : List Nat)
  | progress (sent total : Nat)
deriving DecidableEq, Repr

/-- The send loop (windows.py lines 633-648). `fuel` only bounds the iteration
count: every iteration that recurses consumes at least one byte of
`remaining`, so `remaining.length` iterations always suffice. -/
def sendLoopF : Nat → List Nat → Nat → Nat → List SendEvent
  | 0, _, _, _ => []
  | fuel + 1, remaining, sent, total =>
    if sent < total then
      if (remaining.take 8192).isEmpty then []
      else
        .chunk (remaining.take 8192) ::
        .progress (sent + (remaining.take 8192).length) total ::
        sendLoopF fuel (remaining.drop 8192) (sent + (remaining.take 8192).length) total
    else []

/-- The send loop on the remaining file content. -/
def sendLoop (remaining : List Nat) (sent total : Nat) : List SendEvent :=
  sendLoopF remaining.length remaining sent total

/-- Characters of the last `/`-separated segment of a path (accumulator holds
the current segment reversed). -/
def path_name_aux : List Char → List Char → List Char
  | acc, [] => acc.reverse
  | acc, c :: rest =>
    if c = '/' then path_name_aux [] rest else path_name_aux (c :: acc) rest

/-- `Path(file_path).name`: the part after the last path separator. -/
def path_name (p : String) : String := String.mk (path_name_aux [] p.toList)

/-- How `send_file` can end: early return on a missing path, exception caught
(connect or send failure), or the success notification. -/
inductive SendOutcome where
  | fileNotFound
  | networkError
  | success
deriving DecidableEq, Repr

/-- The result of one `send_file` call: outcome, ordered socket/progress
events, whether a socket was ever created, and whether it was closed. -/
structure SendFileResult where
  outcome : SendOutcome
  events : List SendEvent
  socket_created : Bool
  closed : Bool
deriving DecidableEq, Repr

/-- `send_file fs file_path connect_ok`: `fs` is the filesystem, `connect_ok`
tells whether the TCP connect succeeds. On a missing path the source returns
before any socket exists; on a failed connect the `finally` block still closes
the socket (`client_socket` is in `locals()`); on success it emits the header
write, the chunk/progress schedule, and closes. -/
def send_file (fs : Dict (List Nat)) (file_path : String) (connect_ok : Bool) :
    SendFileResult :=
  match dget fs file_path with
  | none =>
    { outcome := .fileNotFound, events := [], socket_created := false, closed := false }
  | some content =>
    if connect_ok then
      { outcome := .success,
        events := .header (path_name file_path) content.length ::
          sendLoop content 0 content.length,
        socket_created := true, closed := true }
    else
      { outcome := .networkError, events := [], socket_created := true, closed := true }

/-- Concatenation of all body bytes sent by a schedule of events. -/
def chunkBytes : List SendEvent → List Nat
  | [] => []
  | .chunk b :: rest => b ++ chunkBytes rest
  | _ :: rest => chunkBytes rest

/-- `chunkedOk sent total evs`: the schedule alternates a nonempty `send` of
at most 8192 bytes with a progress update carrying the running `sent` total,
and ends exactly when `sent` reaches `total`. -/
def chunkedOk : Nat → Nat → List SendEvent → Bool
  | sent, total, [] => sent == total
  | sent, total, .chunk b :: .progress s t :: rest =>
    !b.isEmpty && decide (b.length ≤ 8192) && (s == sent + b.length) && (t == total) &&
      chunkedOk s total rest
  | _, _, _ => false

theorem sendLoopF_spec (fuel : Nat) (remaining : List Nat) (sent total : Nat)
    (hfuel : remaining.length ≤ fuel) (hsum : sent + remaining.length = total) :
    chunkBytes (sendLoopF fuel remaining sent total) = remaining ∧
    chunkedOk sent total (sendLoopF fuel remaining sent total) = true := by
  induction fuel generalizing remaining sent with
  | zero =>
    have hnil : remaining = [] := List.length_eq_zero.mp (Nat.le_zero.mp hfuel)
    subst hnil
    refine ⟨rfl, ?_⟩
    simp only [sendLoopF, chunkedOk, beq_iff_eq]
    simp at hsum
    omega
  | succ fuel ih =>
    by_cases hlt : sent < total
    · have hne : remaining ≠ [] := by
        intro hr
        subst hr
        simp at hsum
        omega
      cases hrt : remaining.take 8192 with
      | nil =>
        exfalso
        have hlen := congrArg List.length hrt
        rw [List.length_take] at hlen
        simp only [List.length_nil] at hlen
        have hpos : 0 < remaining.length := List.length_pos.mpr hne
        omega
      | cons c0 cs =>
        have hEmp : (remaining.take 8192).isEmpty = false := by rw [hrt]; rfl
        have hred : sendLoopF (fuel + 1) remaining sent total =
            .chunk (remaining.take 8192) ::
            .progress (sent + (remaining.take 8192).length) total ::
            sendLoopF fuel (remaining.drop 8192)
              (sent + (remaining.take 8192).length) total := by
          simp [sendLoopF, hlt, hEmp]
        have htk : (remaining.take 8192).length = min 8192 remaining.length :=
          List.length_take _ _
        have hdp : (remaining.drop 8192).length = remaining.length - 8192 :=
          List.length_drop _ _
        have hih := ih (remaining.drop 8192) (sent + (remaining.take 8192).length)
          (by omega) (by omega)
        constructor
        · rw [hred]
          simp only [chunkBytes]
          rw [hih.1, List.take_append_drop]
        · rw [hred]
          have hb : (remaining.take 8192).length ≤ 8192 := by
            rw [htk]
            omega
          have hih2 := hih.2
          rw [htk] at hih2
          simp [chunkedOk, hEmp, hih2, hb]
    · have hz : remaining.length = 0 := by omega
      have hnil : remaining = [] := List.length_eq_zero.mp hz
      subst hnil
      refine ⟨by simp [sendLoopF, hlt, chunkBytes], ?_⟩
      simp only [sendLoopF, if_neg hlt, chunkedOk, beq_iff_eq]
      simp at hsum
      omega

/-- **C8**: for every file present on disk with content of length `N`,
`send_file` with a successful connect emits one header frame
`(filename, N)` as its first write, then sends exactly the `N` content bytes
in nonempty chunks of at most 8192 bytes with a progress invocation carrying
the running total after each chunk, reports success, and closes the socket;
the socket is also closed on the failing-connect path. -/
theorem C8_send_file_spec (fs : Dict (List Nat)) (p : String) (content : List Nat)
    (h : dget fs p = some content) :
    (send_file fs p true).events =
      .header (path_name p) content.length :: sendLoop content 0 content.length ∧
    chunkBytes (send_file fs p true).events = content ∧
    chunkedOk 0 content.length (sendLoop content 0 content.length) = true ∧
    (send_file fs p true).outcome = .success ∧
    (send_file fs p true).closed = true ∧
    (send_file fs p false).closed = true := by
  have hspec := sendLoopF_spec content.length content 0 content.length le_rfl
    (by omega)
  have hev : (send_file fs p true).events =
      .header (path_name p) content.length :: sendLoop content 0 content.length := by
    simp [send_file, h]
  refine ⟨hev, ?_, hspec.2, ?_, ?_, ?_⟩
  · rw [hev]
    simp only [chunkBytes]
    exact hspec.1
  · simp [send_file, h]
  · simp [send_file, h]
  · simp [send_file, h]

theorem C8_send_file_spec_witness :
    (send_file [("dir/f.txt", [1, 2, 3])] "dir/f.txt" true).events =
      .header "f.txt" 3 :: sendLoop [1, 2, 3] 0 3 ∧
    chunkBytes (send_file [("dir/f.txt", [1, 2, 3])] "dir/f.txt" true).events =
      [1, 2, 3] ∧
    chunkedOk 0 3 (sendLoop [1, 2, 3] 0 3) = true ∧
    (send_file [("dir/f.txt", [1, 2, 3])] "dir/f.txt" true).closed = true ∧
    (send_file [("dir/f.txt", [1, 2, 3])] "dir/f.txt" false).closed = true := by
  obtain ⟨h1, h2, h3, h4, h5, h6⟩ :=
    C8_send_file_spec [("dir/f.txt", [1, 2, 3])] "dir/f.txt" [1, 2, 3] rfl
  refine ⟨?_, h2, h3, h5, h6⟩
  rw [h1]
  decide
